import Mathlib

/-!
Verification of `funlib/persistence/arrays/datasets.py`.

The development shallowly embeds the three core pieces of the module:

* `readVoxelSizeOffset` — the metadata resolver `_read_voxel_size_offset`
  (datasets.py lines 17-84);
* `get_chunk_size_dim` / `get_chunk_shape` — the chunk-geometry planner
  (datasets.py lines 381-401);
* `open_ds` / `prepare_ds` — dataset opening and provisioning
  (datasets.py lines 87-171 and 174-378), over an explicit store state.

Coordinates of the external geometry library (`funlib.geometry`) are embedded
as `List Int`.  Elementwise binary operations on two coordinates require equal
rank (the library asserts this); they are modelled by `coordZip`, which returns
`none` on a rank mismatch.  Division of coordinates follows the spec's
description of the snapping rule (`floor(...)`), i.e. Python floor division
`Int.fdiv`.  Machine dtypes are opaque and modelled as `String`.
-/

namespace Funlib

/-- Backend native axis order: `"C"` (row-major) or `"F"` (column-major). -/
inductive AxisOrder where
  | C
  | F
  deriving DecidableEq, Repr

/-- Elementwise combination of two coordinates.  The geometry library asserts
that both coordinates have the same number of dimensions; a rank mismatch is
modelled as `none`. -/
def coordZip (f : Int → Int → Int) (a b : List Int) : Option (List Int) :=
  if a.length = b.length then some (List.zipWith f a b) else none

/-- Elementwise coordinate division (Python `//` semantics: floor). -/
def coordDiv (a b : List Int) : Option (List Int) :=
  coordZip Int.fdiv a b

/-- Elementwise coordinate multiplication. -/
def coordMul (a b : List Int) : Option (List Int) :=
  coordZip (· * ·) a b

/-- Elementwise coordinate addition. -/
def coordAdd (a b : List Int) : Option (List Int) :=
  coordZip (· + ·) a b

/-- Division of a coordinate by a scalar (Python `Coordinate / 2`). -/
def coordScalarDiv (a : List Int) (s : Int) : List Int :=
  a.map (fun x => Int.fdiv x s)

/-- Coordinate.is_multiple_of: every component of `a` is a multiple of the
corresponding component of `b` (Python `zip` truncates to the shorter list). -/
def isMultipleOf (a b : List Int) : Bool :=
  (List.zipWith (fun x y => Int.fmod x y == 0) a b).all id

/-- The `transform` attribute convention: a declared ordering (defaulting to
row-major `"C"`), a scale vector and a translate vector. -/
structure Transform where
  ordering : Option AxisOrder
  scale : List Int
  translate : List Int
  deriving DecidableEq, Repr

/-- The nested `pixelResolution` attribute convention. -/
structure PixelResolution where
  dimensions : List Int
  deriving DecidableEq, Repr

/-- Raw attribute set of a backend dataset, restricted to the keys the
resolver consults. -/
structure Attrs where
  resolution : Option (List Int) := none
  scale : Option (List Int) := none
  pixelResolution : Option PixelResolution := none
  transform : Option Transform := none
  offset : Option (List Int) := none
  deriving DecidableEq, Repr

/-- A raw backend dataset as seen by the resolver: its attributes and its
on-disk shape. -/
structure RawDataset where
  attrs : Attrs
  shape : List Int
  deriving DecidableEq, Repr

/-- Errors raised during metadata resolution.  `dimsMismatch` is the explicit
assertion "resolution and offset attributes differ in length"
(datasets.py lines 44-47); `coordDimsMismatch` is the geometry library's
equal-rank assertion on elementwise coordinate arithmetic, hit by the
snapping test at line 70 when the vectors have different ranks. -/
inductive ResolveError where
  | dimsMismatch
  | coordDimsMismatch
  deriving DecidableEq, Repr

/-- Voxel-size candidate, first convention that matches
(datasets.py lines 22-40). -/
def vsFromAttrs (a : Attrs) (order : AxisOrder) : Option (List Int) :=
  match a.resolution with
  | some r => some r
  | none =>
    match a.scale with
    | some s => some s
    | none =>
      match a.pixelResolution with
      | some p => some p.dimensions
      | none =>
        match a.transform with
        | some t =>
          some (if (t.ordering.getD AxisOrder.C) ≠ order
                then t.scale.reverse else t.scale)
        | none => none

/-- Offset candidate, first convention that matches, ignoring the
dimensionality assertion (datasets.py lines 42-55). -/
def offFromAttrsRaw (a : Attrs) (order : AxisOrder) : Option (List Int) :=
  match a.offset with
  | some o => some o
  | none =>
    match a.transform with
    | some t =>
      some (if (t.ordering.getD AxisOrder.C) ≠ order
            then t.translate.reverse else t.translate)
    | none => none

/-- Offset resolution step (datasets.py lines 42-55): resolves the offset
candidate and updates the dimensionality, failing when the `offset` attribute
disagrees in length with an already-determined dimensionality. -/
def offFromAttrs (a : Attrs) (order : AxisOrder) (dims0 : Option Nat) :
    Except ResolveError (Option (List Int) × Option Nat) :=
  match a.offset with
  | some o =>
    match dims0 with
    | some d =>
      if d = o.length then .ok (some o, some d) else .error .dimsMismatch
    | none => .ok (some o, some o.length)
  | none =>
    match a.transform with
    | some t =>
      .ok (some (if (t.ordering.getD AxisOrder.C) ≠ order
                 then t.translate.reverse else t.translate), dims0)
    | none => .ok (none, dims0)

/-- The snapping formula (datasets.py lines 79-81):
`((offset + voxel_size / 2) / voxel_size) * voxel_size` elementwise. -/
def snapOffset (offset voxel_size : List Int) : Except ResolveError (List Int) :=
  match coordAdd offset (coordScalarDiv voxel_size 2) with
  | none => .error .coordDimsMismatch
  | some s =>
    match coordDiv s voxel_size with
    | none => .error .coordDimsMismatch
    | some q =>
      match coordMul q voxel_size with
      | none => .error .coordDimsMismatch
      | some o => .ok o

/-- The divisibility test and conditional snap (datasets.py lines 70-84),
applied after the axis-order canonicalization. -/
def snapPhase (voxel_size offset : List Int) :
    Except ResolveError (List Int × List Int) :=
  match coordDiv offset voxel_size with
  | none => .error .coordDimsMismatch
  | some q =>
    match coordMul q voxel_size with
    | none => .error .coordDimsMismatch
    | some t =>
      if t ≠ offset then
        match snapOffset offset voxel_size with
        | .error e => .error e
        | .ok o2 => .ok (voxel_size, o2)
      else
        .ok (voxel_size, offset)

/-- The metadata resolver `_read_voxel_size_offset` (datasets.py lines 17-84). -/
def readVoxelSizeOffset (ds : RawDataset) (order : AxisOrder) :
    Except ResolveError (List Int × List Int) :=
  let vs0 := vsFromAttrs ds.attrs order
  let dims0 := vs0.map List.length
  match offFromAttrs ds.attrs order dims0 with
  | .error e => .error e
  | .ok (off0, dims1) =>
    let dims := dims1.getD ds.shape.length
    let voxel_size := vs0.getD (List.replicate dims 1)
    let offset := off0.getD (List.replicate dims 0)
    if order = AxisOrder.F then
      snapPhase voxel_size.reverse offset.reverse
    else
      snapPhase voxel_size offset

instance {ε α : Type} [DecidableEq ε] [DecidableEq α] : DecidableEq (Except ε α) :=
  fun x y =>
    match x, y with
    | .ok a, .ok b =>
      if h : a = b then .isTrue (by rw [h]) else .isFalse (fun hh => h (Except.ok.inj hh))
    | .error a, .error b =>
      if h : a = b then .isTrue (by rw [h]) else .isFalse (fun hh => h (Except.error.inj hh))
    | .ok _, .error _ => .isFalse (fun hh => Except.noConfusion hh)
    | .error _, .ok _ => .isFalse (fun hh => Except.noConfusion hh)

/-! ### Helper lemmas on lists and coordinates -/

theorem zipWith_reverse_eq {α : Type} (f : α → α → α) :
    ∀ (a b : List α), a.length = b.length →
      List.zipWith f a.reverse b.reverse = (List.zipWith f a b).reverse
  | [], [], _ => rfl
  | x :: a, y :: b, h => by
    have h' : a.length = b.length := by simpa using h
    have hr : a.reverse.length = b.reverse.length := by simpa using h'
    simp only [List.reverse_cons, List.zipWith_cons_cons]
    rw [List.zipWith_append _ _ _ _ _ hr, zipWith_reverse_eq f a b h']
    rfl

theorem coordZip_reverse (f : Int → Int → Int) (a b : List Int) :
    coordZip f a.reverse b.reverse = (coordZip f a b).map List.reverse := by
  unfold coordZip
  by_cases h : a.length = b.length
  · simp [h, zipWith_reverse_eq f a b h]
  · simp [h]

theorem coordDiv_reverse (a b : List Int) :
    coordDiv a.reverse b.reverse = (coordDiv a b).map List.reverse :=
  coordZip_reverse Int.fdiv a b

theorem coordMul_reverse (a b : List Int) :
    coordMul a.reverse b.reverse = (coordMul a b).map List.reverse :=
  coordZip_reverse (· * ·) a b

theorem coordAdd_reverse (a b : List Int) :
    coordAdd a.reverse b.reverse = (coordAdd a b).map List.reverse :=
  coordZip_reverse (· + ·) a b

theorem coordScalarDiv_reverse (a : List Int) (s : Int) :
    coordScalarDiv a.reverse s = (coordScalarDiv a s).reverse := by
  simp [coordScalarDiv]

theorem snapOffset_reverse (o v : List Int) :
    snapOffset o.reverse v.reverse = (snapOffset o v).map List.reverse := by
  unfold snapOffset
  rw [coordScalarDiv_reverse, coordAdd_reverse]
  cases hadd : coordAdd o (coordScalarDiv v 2) with
  | none => rfl
  | some s =>
    simp only [Option.map_some']
    rw [coordDiv_reverse]
    cases hdiv : coordDiv s v with
    | none => rfl
    | some q =>
      simp only [Option.map_some']
      rw [coordMul_reverse]
      cases hmul : coordMul q v with
      | none => rfl
      | some t => rfl

theorem snapPhase_reverse (v o : List Int) :
    snapPhase v.reverse o.reverse =
      (snapPhase v o).map (fun p => (p.1.reverse, p.2.reverse)) := by
  unfold snapPhase
  rw [coordDiv_reverse]
  cases hdiv : coordDiv o v with
  | none => rfl
  | some q =>
    simp only [Option.map_some']
    rw [coordMul_reverse]
    cases hmul : coordMul q v with
    | none => rfl
    | some t =>
      simp only [Option.map_some']
      by_cases hne : t = o
      · simp only [hne, ne_eq, not_true_eq_false, if_false, reduceIte]
        rfl
      · have hner : t.reverse ≠ o.reverse := by
          simpa [List.reverse_inj] using hne
        simp only [ne_eq, hne, hner, not_false_iff, if_true]
        rw [snapOffset_reverse]
        cases hs : snapOffset o v with
        | error e => rfl
        | ok o2 => rfl

theorem vsFromAttrs_order_irrel (a : Attrs)
    (h : a.resolution.isSome ∨ a.scale.isSome ∨ a.pixelResolution.isSome ∨
         a.transform = none)
    (o o' : AxisOrder) : vsFromAttrs a o = vsFromAttrs a o' := by
  unfold vsFromAttrs
  cases hres : a.resolution with
  | some r => rfl
  | none =>
    cases hsc : a.scale with
    | some s => rfl
    | none =>
      cases hpx : a.pixelResolution with
      | some p => rfl
      | none =>
        cases htr : a.transform with
        | none => rfl
        | some t =>
          rcases h with h | h | h | h <;>
            simp_all

theorem offFromAttrs_order_irrel (a : Attrs)
    (h : a.offset.isSome ∨ a.transform = none)
    (o o' : AxisOrder) (d : Option Nat) :
    offFromAttrs a o d = offFromAttrs a o' d := by
  unfold offFromAttrs
  cases hoff : a.offset with
  | some x => rfl
  | none =>
    cases htr : a.transform with
    | none => rfl
    | some t => rcases h with h | h <;> simp_all

/-! ### C1: column-major resolution versus row-major resolution -/

/-- Attribute set supplying voxel size and offset through the `transform`
convention with its default row-major declared ordering. -/
def c1ds : RawDataset :=
  { attrs := { transform := some { ordering := none, scale := [1, 2], translate := [0, 0] } },
    shape := [2, 2] }

/-- C1 (counterexample): with voxel size and offset supplied through the
`transform` convention (declared ordering defaulting to row-major), the
column-major resolution equals the row-major resolution instead of being its
elementwise reverse: both orders resolve `([1, 2], [0, 0])`, whereas the
reverse of the row-major result is `([2, 1], [0, 0])`. -/
theorem C1_transform_not_reversed :
    readVoxelSizeOffset c1ds AxisOrder.C = .ok ([1, 2], [0, 0]) ∧
    readVoxelSizeOffset c1ds AxisOrder.F = .ok ([1, 2], [0, 0]) ∧
    readVoxelSizeOffset c1ds AxisOrder.F ≠
      .ok (([1, 2] : List Int).reverse, ([0, 0] : List Int).reverse) := by
  refine ⟨by decide, by decide, by decide⟩

/-- C1 (amended): when neither resolved vector is supplied by the `transform`
convention — voxel size comes from `resolution`, `scale` or
`pixelResolution.dimensions` (or is defaulted), and offset comes from the
`offset` attribute (or is defaulted) — resolution under the column-major
order yields exactly the elementwise reverse of the row-major resolution
(and fails in one order exactly when it fails in the other). -/
theorem C1_reverse_of_nontransform_sources (ds : RawDataset)
    (h1 : ds.attrs.resolution.isSome ∨ ds.attrs.scale.isSome ∨
          ds.attrs.pixelResolution.isSome ∨ ds.attrs.transform = none)
    (h2 : ds.attrs.offset.isSome ∨ ds.attrs.transform = none) :
    readVoxelSizeOffset ds AxisOrder.F =
      (readVoxelSizeOffset ds AxisOrder.C).map
        (fun p => (p.1.reverse, p.2.reverse)) := by
  simp only [readVoxelSizeOffset,
    vsFromAttrs_order_irrel ds.attrs h1 AxisOrder.F AxisOrder.C,
    offFromAttrs_order_irrel ds.attrs h2 AxisOrder.F AxisOrder.C,
    reduceIte]
  cases hres : offFromAttrs ds.attrs AxisOrder.C
      (Option.map List.length (vsFromAttrs ds.attrs AxisOrder.C)) with
  | error e => rfl
  | ok p =>
    obtain ⟨off0, dims1⟩ := p
    simp only [hres]
    exact snapPhase_reverse _ _

/-- Witness for C1 (amended) at a concrete attribute set
(`resolution = [1, 2]`, `offset = [3, 4]`). -/
theorem C1_reverse_witness :
    readVoxelSizeOffset
        { attrs := { resolution := some [1, 2], offset := some [3, 4] },
          shape := [5, 5] } AxisOrder.F =
      (readVoxelSizeOffset
          { attrs := { resolution := some [1, 2], offset := some [3, 4] },
            shape := [5, 5] } AxisOrder.C).map
        (fun p => (p.1.reverse, p.2.reverse)) :=
  C1_reverse_of_nontransform_sources _ (by decide) (by decide)

/-! ### C5: idempotence of the snapping rule -/

/-- Per-axis snapping formula: `((o + v / 2) / v) * v` with floor division. -/
def snapDim (o v : Int) : Int :=
  Int.fdiv (o + Int.fdiv v 2) v * v

theorem snapOffset_eq_zipWith :
    ∀ (o v : List Int), o.length = v.length →
      snapOffset o v = .ok (List.zipWith snapDim o v)
  | [], [], _ => rfl
  | x :: o, y :: v, h => by
    have h' : o.length = v.length := by simpa using h
    have ih := snapOffset_eq_zipWith o v h'
    simp only [snapOffset, coordAdd, coordDiv, coordMul, coordZip, coordScalarDiv] at ih ⊢
    simp only [List.length_cons, List.map_cons, List.zipWith_cons_cons, h', if_true,
      List.length_zipWith, List.length_map, min_self, reduceIte] at ih ⊢
    simp only [Except.ok.injEq, List.cons.injEq] at ih ⊢
    exact ⟨rfl, ih⟩

theorem snapDim_of_dvd {o v : Int} (hv : 0 < v) (hd : v ∣ o) : snapDim o v = o := by
  obtain ⟨m, rfl⟩ := hd
  have h2 : (0 : Int) ≤ 2 := by norm_num
  have hv0 : (0 : Int) ≤ v := le_of_lt hv
  unfold snapDim
  rw [Int.fdiv_eq_ediv _ h2, Int.fdiv_eq_ediv _ hv0]
  have hhalf : v / 2 / v = 0 := by
    apply Int.ediv_eq_zero_of_lt
    · omega
    · omega
  have : v * m + v / 2 = v / 2 + m * v := by ring
  rw [this, Int.add_mul_ediv_right _ _ (by omega : v ≠ 0), hhalf]
  ring

theorem snapDim_dvd_result (o v : Int) : v ∣ snapDim o v :=
  dvd_mul_left v _

theorem zipWith_snapDim_idem :
    ∀ (o v : List Int), (∀ x ∈ v, 0 < x) →
      List.zipWith snapDim (List.zipWith snapDim o v) v = List.zipWith snapDim o v
  | [], _, _ => by simp
  | _ :: _, [], _ => by simp
  | x :: o, y :: v, h => by
    have hy : 0 < y := h y (by simp)
    have h' : ∀ x ∈ v, 0 < x := fun z hz => h z (by simp [hz])
    simp only [List.zipWith_cons_cons, List.cons.injEq]
    exact ⟨snapDim_of_dvd hy (snapDim_dvd_result x y), zipWith_snapDim_idem o v h'⟩

theorem zipWith_snapDim_of_aligned :
    ∀ (o v : List Int), (∀ x ∈ v, 0 < x) →
      (∀ p ∈ o.zip v, p.2 ∣ p.1) → List.zipWith snapDim o v = o.take v.length
  | [], _, _, _ => by simp
  | _ :: _, [], _, _ => by simp
  | x :: o, y :: v, h, hd => by
    have hy : 0 < y := h y (by simp)
    have hxy : y ∣ x := hd (x, y) (by simp)
    have h' : ∀ x ∈ v, 0 < x := fun z hz => h z (by simp [hz])
    have hd' : ∀ p ∈ o.zip v, p.2 ∣ p.1 := fun p hp => hd p (by simp [hp])
    simp only [List.zipWith_cons_cons, List.length_cons, List.take_succ_cons,
      List.cons.injEq]
    exact ⟨snapDim_of_dvd hy hxy, zipWith_snapDim_of_aligned o v h' hd'⟩

/-- C5 (confirmed): the snapping formula
`((offset + voxel_size / 2) / voxel_size) * voxel_size` is idempotent.  For
every integer offset and positive integer voxel size of equal rank, snapping
an offset that is already an exact elementwise multiple of the voxel size
leaves it unchanged, and applying the formula twice yields the same result as
applying it once. -/
theorem C5_snap_idempotent (o v : List Int) (hlen : o.length = v.length)
    (hpos : ∀ x ∈ v, 0 < x) :
    ((∀ p ∈ o.zip v, p.2 ∣ p.1) → snapOffset o v = .ok o) ∧
    ∃ o1, snapOffset o v = .ok o1 ∧ snapOffset o1 v = .ok o1 := by
  constructor
  · intro hd
    rw [snapOffset_eq_zipWith o v hlen, zipWith_snapDim_of_aligned o v hpos hd,
      ← hlen, List.take_length]
  · refine ⟨List.zipWith snapDim o v, snapOffset_eq_zipWith o v hlen, ?_⟩
    have hlen1 : (List.zipWith snapDim o v).length = v.length := by
      simp [List.length_zipWith, hlen]
    rw [snapOffset_eq_zipWith _ v hlen1, zipWith_snapDim_idem o v hpos]

/-- Witness for C5 at `offset = [4, -7]`, `voxel_size = [2, 3]`. -/
theorem C5_snap_idempotent_witness :
    ((∀ p ∈ ([4, -7] : List Int).zip ([2, 3] : List Int), p.2 ∣ p.1) →
      snapOffset [4, -7] [2, 3] = .ok [4, -7]) ∧
    ∃ o1, snapOffset [4, -7] [2, 3] = .ok o1 ∧ snapOffset o1 [2, 3] = .ok o1 :=
  C5_snap_idempotent [4, -7] [2, 3] (by decide) (by decide)

/-! ### C6: rank disagreement between voxel-size and offset sources -/

/-- C6 (confirmed): whenever the convention supplying the voxel size and the
convention supplying the offset provide vectors of different lengths, the
resolver fails with a dimensionality-mismatch error — either its own
"resolution and offset attributes differ in length" assertion, or the
geometry library's equal-rank assertion on elementwise arithmetic — and never
returns a `(voxel_size, offset)` pair. -/
theorem C6_dims_mismatch_fails (ds : RawDataset) (order : AxisOrder)
    (v o : List Int) (hv : vsFromAttrs ds.attrs order = some v)
    (ho : offFromAttrsRaw ds.attrs order = some o)
    (hne : v.length ≠ o.length) :
    readVoxelSizeOffset ds order = .error .dimsMismatch ∨
    readVoxelSizeOffset ds order = .error .coordDimsMismatch := by
  unfold readVoxelSizeOffset
  rw [hv]
  cases hoff : ds.attrs.offset with
  | some o' =>
    have ho' : o = o' := by
      unfold offFromAttrsRaw at ho
      rw [hoff] at ho
      exact (Option.some.inj ho).symm
    subst ho'
    left
    simp [offFromAttrs, hoff, hne]
  | none =>
    right
    unfold offFromAttrsRaw at ho
    rw [hoff] at ho
    cases htr : ds.attrs.transform with
    | none => rw [htr] at ho; exact absurd ho (by simp)
    | some t =>
      rw [htr] at ho
      have hole : o.length =
          (if (t.ordering.getD AxisOrder.C) ≠ order
           then t.translate.reverse else t.translate).length := by
        rw [Option.some.inj ho]
      simp only [offFromAttrs, hoff, htr, Option.map_some']
      have hlen' : ∀ (x y : List Int), x.length ≠ y.length →
          snapPhase x y = .error .coordDimsMismatch := by
        intro x y hxy
        unfold snapPhase coordDiv coordZip
        rw [if_neg (fun hh => hxy hh.symm)]
      cases order with
      | C =>
        simp only [if_neg (by decide : ¬(AxisOrder.C = AxisOrder.F))]
        apply hlen'
        simp only [Option.getD_some]
        rw [← hole]
        exact hne
      | F =>
        simp only [if_pos rfl]
        apply hlen'
        simp only [Option.getD_some, List.length_reverse]
        rw [← hole]
        exact hne

/-- Witness for C6: `resolution = [1, 2]` together with
`transform.translate = [0, 0, 0]` (rank 3) makes resolution fail. -/
theorem C6_dims_mismatch_witness :
    readVoxelSizeOffset
        { attrs := { resolution := some [1, 2],
                     transform := some { ordering := none, scale := [1, 2],
                                         translate := [0, 0, 0] } },
          shape := [2, 2] } AxisOrder.C = .error .dimsMismatch ∨
    readVoxelSizeOffset
        { attrs := { resolution := some [1, 2],
                     transform := some { ordering := none, scale := [1, 2],
                                         translate := [0, 0, 0] } },
          shape := [2, 2] } AxisOrder.C = .error .coordDimsMismatch :=
  C6_dims_mismatch_fails _ AxisOrder.C [1, 2] [0, 0, 0] (by decide) (by decide)
    (by decide)

/-! ### The chunk-geometry planner -/

/-- Loop body of `get_chunk_size_dim` (datasets.py lines 395-400).  The state
is the pair `(best_k, best_target_diff)`. -/
def chunkStep (b target : Int) (st : Option Int × Int) (k : Int) :
    Option Int × Int :=
  if Int.fmod (Int.fdiv b k * k) b = 0 then
    let diff := |Int.fdiv b k - target|
    match st.1 with
    | none => (some k, diff)
    | some bk => if diff < st.2 then (some k, diff) else (some bk, st.2)
  else st

/-- The planner loop over `range(1, b + 1)` after `n` iterations. -/
def chunkFold (b target : Int) (n : Nat) : Option Int × Int :=
  ((List.range' 1 n).map (fun m => (m : Int))).foldl (chunkStep b target) (none, 0)

/-- The per-dimension chunk planner `get_chunk_size_dim`
(datasets.py lines 391-401).  `none` models the `TypeError` Python raises when
the loop never assigns `best_k` (only possible for `b < 1`). -/
def get_chunk_size_dim (b target : Int) : Option Int :=
  match (chunkFold b target b.toNat).1 with
  | some k => some (Int.fdiv b k)
  | none => none

/-- The planner applied per dimension with the default target 256
(datasets.py lines 381-388). -/
def get_chunk_shape : List Int → Option (List Int)
  | [] => some []
  | x :: xs =>
    match get_chunk_size_dim x 256, get_chunk_shape xs with
    | some c, some cs => some (c :: cs)
    | _, _ => none

theorem chunkFold_succ (b t : Int) (n : Nat) :
    chunkFold b t (n + 1) = chunkStep b t (chunkFold b t n) ((1 + n : Nat) : Int) := by
  simp [chunkFold, List.range'_concat, List.foldl_append]

/-- The loop's validity test `((b // k) * k) % b == 0` holds exactly when `k`
divides `b`, for `1 ≤ k ≤ b`. -/
theorem chunk_valid_iff (b k : Int) (hb : 1 ≤ b) (hk1 : 1 ≤ k) (hkb : k ≤ b) :
    Int.fmod (Int.fdiv b k * k) b = 0 ↔ k ∣ b := by
  rw [Int.fdiv_eq_ediv _ (by omega : (0 : Int) ≤ k),
    Int.fmod_eq_emod _ (by omega : (0 : Int) ≤ b)]
  have hdm := Int.ediv_add_emod b k
  have hr0 : 0 ≤ b % k := Int.emod_nonneg b (by omega)
  have hrk : b % k < k := Int.emod_lt_of_pos b (by omega)
  constructor
  · intro h
    by_contra hnd
    have hr : b % k ≠ 0 := fun hz => hnd (Int.dvd_of_emod_eq_zero hz)
    have h1 : b / k * k = b - b % k := by rw [mul_comm]; linarith
    rw [h1, Int.emod_eq_of_lt (by omega) (by omega)] at h
    omega
  · intro h
    have hr : b % k = 0 := Int.emod_eq_zero_of_dvd h
    have h1 : b / k * k = b := by rw [mul_comm]; linarith
    rw [h1, Int.emod_self]

theorem chunk_valid_one (b : Int) : Int.fmod (Int.fdiv b 1 * 1) b = 0 := by
  rw [Int.fdiv_one, mul_one, Int.fmod_self]

/-- Invariant of the planner loop: after processing `k = 1, ..., n`
(for `1 ≤ n ≤ b`), the state holds the first chunk count among the divisors
of `b` in `[1, n]` whose chunk length is closest to the target. -/
theorem chunkFold_spec (b t : Int) (hb : 1 ≤ b) :
    ∀ n : Nat, 1 ≤ n → (n : Int) ≤ b →
      ∃ k : Int, chunkFold b t n = (some k, |Int.fdiv b k - t|) ∧
        1 ≤ k ∧ k ≤ (n : Int) ∧ k ∣ b ∧
        (∀ j : Int, 1 ≤ j → j ≤ (n : Int) → j ∣ b →
          |Int.fdiv b k - t| ≤ |Int.fdiv b j - t|) ∧
        (∀ j : Int, 1 ≤ j → j < k → j ∣ b →
          |Int.fdiv b k - t| < |Int.fdiv b j - t|) := by
  intro n
  induction n with
  | zero => intro h1 _; exact absurd h1 (by omega)
  | succ n ih =>
    intro _ hle
    cases Nat.eq_zero_or_pos n with
    | inl hz =>
      subst hz
      refine ⟨1, ?_, le_refl 1, by norm_num, one_dvd b, ?_, ?_⟩
      · show chunkFold b t 1 = (some 1, |Int.fdiv b 1 - t|)
        simp [chunkFold, List.range', chunkStep, chunk_valid_one b]
      · intro j hj1 hj2 _
        have : j = 1 := by omega
        subst this
        exact le_refl _
      · intro j hj1 hj2 _
        omega
    | inr hpos =>
      have hle' : (n : Int) ≤ b := by push_cast at hle ⊢; omega
      obtain ⟨k, heq, hk1, hkn, hkd, hmin, hfirst⟩ := ih hpos hle'
      have hcast : ((1 + n : Nat) : Int) = (n : Int) + 1 := by push_cast; ring
      have hnb : (n : Int) + 1 ≤ b := by push_cast at hle; omega
      rw [chunkFold_succ, heq, hcast]
      push_cast
      by_cases hdv : ((n : Int) + 1) ∣ b
      · have hvalid : Int.fmod (Int.fdiv b ((n : Int) + 1) * ((n : Int) + 1)) b = 0 :=
          (chunk_valid_iff b _ hb (by omega) hnb).mpr hdv
        by_cases hlt : |Int.fdiv b ((n : Int) + 1) - t| < |Int.fdiv b k - t|
        · refine ⟨(n : Int) + 1, ?_, by omega, le_refl _, hdv, ?_, ?_⟩
          · simp [chunkStep, hvalid, hlt]
          · intro j hj1 hj2 hjd
            rcases lt_or_eq_of_le hj2 with hj | hj
            · have : j ≤ (n : Int) := by omega
              exact le_of_lt (lt_of_lt_of_le hlt (hmin j hj1 this hjd))
            · subst hj; exact le_refl _
          · intro j hj1 hj2 hjd
            have : j ≤ (n : Int) := by omega
            exact lt_of_lt_of_le hlt (hmin j hj1 this hjd)
        · refine ⟨k, ?_, hk1, by omega, hkd, ?_, hfirst⟩
          · simp [chunkStep, hvalid, hlt]
          · intro j hj1 hj2 hjd
            rcases lt_or_eq_of_le hj2 with hj | hj
            · have : j ≤ (n : Int) := by omega
              exact hmin j hj1 this hjd
            · subst hj; omega
      · have hvalid : ¬ Int.fmod (Int.fdiv b ((n : Int) + 1) * ((n : Int) + 1)) b = 0 :=
          fun hc => hdv ((chunk_valid_iff b _ hb (by omega) hnb).mp hc)
        refine ⟨k, ?_, hk1, by omega, hkd, ?_, hfirst⟩
        · simp [chunkStep, hvalid]
        · intro j hj1 hj2 hjd
          rcases lt_or_eq_of_le hj2 with hj | hj
          · have : j ≤ (n : Int) := by omega
            exact hmin j hj1 this hjd
          · subst hj; exact absurd hjd hdv

/-! ### C3, C4, C9: planner correctness -/

/-- Characterization of the planner's chosen chunk count: `k` is a divisor of
`b` in `[1, b]` whose chunk length `b // k` is closest to the target, and it
is the smallest such count (equivalently, the largest such chunk length). -/
def IsFirstBestCount (b t k : Int) : Prop :=
  1 ≤ k ∧ k ≤ b ∧ k ∣ b ∧
  (∀ j : Int, 1 ≤ j → j ≤ b → j ∣ b →
    |Int.fdiv b k - t| ≤ |Int.fdiv b j - t|) ∧
  (∀ j : Int, 1 ≤ j → j < k → j ∣ b →
    |Int.fdiv b k - t| < |Int.fdiv b j - t|)

theorem get_chunk_size_dim_spec (b t : Int) (hb : 1 ≤ b) :
    ∃ k : Int, IsFirstBestCount b t k ∧
      get_chunk_size_dim b t = some (Int.fdiv b k) := by
  have h1 : 1 ≤ b.toNat := by omega
  have h2 : ((b.toNat : Nat) : Int) ≤ b := by
    rw [Int.toNat_of_nonneg (by omega)]
  obtain ⟨k, heq, hk1, hkn, hkd, hmin, hfirst⟩ := chunkFold_spec b t hb b.toNat h1 h2
  rw [Int.toNat_of_nonneg (by omega : (0 : Int) ≤ b)] at hkn hmin
  refine ⟨k, ⟨hk1, hkn, hkd, hmin, hfirst⟩, ?_⟩
  · unfold get_chunk_size_dim
    rw [heq]

theorem fdiv_of_dvd_facts (b k : Int) (hb : 1 ≤ b) (hk1 : 1 ≤ k) (_hkb : k ≤ b)
    (hkd : k ∣ b) :
    1 ≤ Int.fdiv b k ∧ Int.fdiv b k ≤ b ∧ Int.fdiv b k ∣ b := by
  obtain ⟨m, hm⟩ := hkd
  have hfd : Int.fdiv b k = m := by
    rw [hm, Int.fdiv_eq_ediv _ (by omega : (0 : Int) ≤ k),
      Int.mul_ediv_cancel_left m (by omega : k ≠ 0)]
  have hm1 : 1 ≤ m := by nlinarith
  refine ⟨by omega, ?_, ?_⟩
  · rw [hfd]; nlinarith
  · rw [hfd]; exact ⟨k, by rw [hm]; ring⟩

/-- C9 (confirmed): for every block length `b ≥ 1` the planner loop is total
and well-defined — the count `k = 1` always passes the validity test
`((b // k) * k) % b == 0`, so `best_k` is assigned before the final division,
and the returned chunk length lies between `1` and `b` inclusive. -/
theorem C9_planner_total (b target : Int) (hb : 1 ≤ b) :
    Int.fmod (Int.fdiv b 1 * 1) b = 0 ∧
    ∃ c : Int, get_chunk_size_dim b target = some c ∧ 1 ≤ c ∧ c ≤ b := by
  refine ⟨chunk_valid_one b, ?_⟩
  obtain ⟨k, ⟨hk1, hkb, hkd, _, _⟩, heq⟩ := get_chunk_size_dim_spec b target hb
  obtain ⟨hc1, hcb, _⟩ := fdiv_of_dvd_facts b k hb hk1 hkb hkd
  exact ⟨Int.fdiv b k, heq, hc1, hcb⟩

/-- Witness for C9 at `b = 7`, `target = 5`. -/
theorem C9_planner_total_witness :
    Int.fmod (Int.fdiv 7 1 * 1) 7 = 0 ∧
    ∃ c : Int, get_chunk_size_dim 7 5 = some c ∧ 1 ≤ c ∧ c ≤ 7 :=
  C9_planner_total 7 5 (by norm_num)

/-- C3 (confirmed): for every block length `b ≥ 1` and the default target
chunk length 256, the planner returns a chunk length that evenly divides
`b`. -/
theorem C3_chunk_divides (b : Int) (hb : 1 ≤ b) :
    ∃ c : Int, get_chunk_size_dim b 256 = some c ∧ c ∣ b := by
  obtain ⟨k, ⟨hk1, hkb, hkd, _, _⟩, heq⟩ := get_chunk_size_dim_spec b 256 hb
  obtain ⟨_, _, hdvd⟩ := fdiv_of_dvd_facts b k hb hk1 hkb hkd
  exact ⟨Int.fdiv b k, heq, hdvd⟩

/-- Witness for C3 at `b = 12`. -/
theorem C3_chunk_divides_witness :
    ∃ c : Int, get_chunk_size_dim 12 256 = some c ∧ c ∣ 12 :=
  C3_chunk_divides 12 (by norm_num)

set_option maxRecDepth 10000 in
/-- C4 (confirmed): for every block length `b ≥ 1` and target `t`, the
planner returns `b // k` for the chunk count `k` among the exact divisors of
`b` minimizing `|b // k - t|`, ties broken in favor of the smallest chunk
count (largest chunk length); in particular it returns `100` for
`b = 100, t = 256` and `256` for `b = 1024, t = 256`. -/
theorem C4_planner_first_best (b t : Int) (hb : 1 ≤ b) :
    (∃ k : Int, IsFirstBestCount b t k ∧
      get_chunk_size_dim b t = some (Int.fdiv b k)) ∧
    get_chunk_size_dim 100 256 = some 100 ∧
    get_chunk_size_dim 1024 256 = some 256 :=
  ⟨get_chunk_size_dim_spec b t hb, by decide, by decide⟩

/-- Witness for C4 at `b = 6`, `t = 4`. -/
theorem C4_planner_first_best_witness :
    (∃ k : Int, IsFirstBestCount 6 4 k ∧
      get_chunk_size_dim 6 4 = some (Int.fdiv 6 k)) ∧
    get_chunk_size_dim 100 256 = some 100 ∧
    get_chunk_size_dim 1024 256 = some 256 :=
  C4_planner_first_best 6 4 (by norm_num)

/-! ### Store model: opening and provisioning -/

/-- Python's `str.endswith` over the character list (the byte-position based
`String.endsWith` of the standard library does not reduce in the kernel). -/
def strEndsWith (s suffix : String) : Bool :=
  suffix.data.isSuffixOf s.data

/-- Python's `ds_name.lstrip("/")` (datasets.py line 264). -/
def lstripSlash (s : String) : String :=
  ⟨s.data.dropWhile (fun c => c == '/')⟩

/-- A backend dataset on disk: shape, chunk geometry, dtype (opaque, modelled
as a string) and attributes.  `chunks` records the chunk argument passed at
creation; `none` abstracts the backend's automatic chunking, whose concrete
value this layer never consults (the chunk compatibility check only runs when
a write size was requested, in which case an explicit chunk shape was
passed). -/
structure DSRecord where
  shape : List Int
  chunks : Option (List Int)
  dtype : String
  attrs : Attrs
  deriving DecidableEq, Repr

/-- On-disk state: the existing container directories and the datasets living
at `(container, dataset-name)` paths. -/
structure Store where
  containers : List String
  datasets : List (String × String × DSRecord)
  deriving DecidableEq, Repr

def lookupDS (st : Store) (filename ds_name : String) : Option DSRecord :=
  (st.datasets.find? (fun e => e.1 == filename && e.2.1 == ds_name)).map
    (fun e => e.2.2)

def insertDS (st : Store) (filename ds_name : String) (r : DSRecord) : Store :=
  { st with datasets := (filename, ds_name, r) :: st.datasets }

def removeDS (st : Store) (filename ds_name : String) : Store :=
  { st with datasets :=
      st.datasets.filter (fun e => !(e.1 == filename && e.2.1 == ds_name)) }

/-- `os.makedirs(filename)` followed by `zarr.open(filename, mode="w")`
(datasets.py lines 292-296), when the container directory is absent. -/
def ensureContainer (st : Store) (filename : String) : Store :=
  if filename ∈ st.containers then st
  else { st with containers := filename :: st.containers }

/-- The axis-aligned box of the geometry library: `Roi(offset, shape)`. -/
structure Roi where
  offset : List Int
  shape : List Int
  deriving DecidableEq, Repr

/-- Modelled from the spec: the handle class `Array` lives in
`funlib/persistence/arrays/array.py`, which is not part of the verified file.
Per the spec (§3, DatasetHandle) it bundles the backend dataset reference,
the Roi, the voxel size and an optional chunk shape, and delegates `shape`
and `dtype` to the backend dataset reference. -/
structure ArrayHandle where
  data : DSRecord
  roi : Roi
  voxel_size : List Int
  chunk_shape : Option (List Int)
  deriving DecidableEq, Repr

def ArrayHandle.shape (h : ArrayHandle) : List Int := h.data.shape

def ArrayHandle.dtype (h : ArrayHandle) : String := h.data.dtype

/-- Python's negative slice `l[-n:]`. -/
def takeLast {α : Type} (n : Nat) (l : List α) : List α :=
  l.drop (l.length - n)

inductive OpenError where
  | zipReadOnly
  | openFailure
  | resolve (e : ResolveError)
  | rankMismatch
  | jsonDescriptor
  | unknownFormat
  deriving DecidableEq, Repr

/-- Shared tail of the three concrete `open_ds` branches: resolve metadata at
the given native order, slice the trailing spatial shape, and assemble the
handle (datasets.py lines 120-127, 133-140, 146-153).  Datasets created by
this layer store row-major (`"C"`) zarr arrays, so the zarr branch's
`ds.order` is modelled as `"C"`. -/
def openResolved (r : DSRecord) (order : AxisOrder) : Except OpenError ArrayHandle :=
  match readVoxelSizeOffset ⟨r.attrs, r.shape⟩ order with
  | .error e => .error (.resolve e)
  | .ok (voxel_size, offset) =>
    let shape := takeLast voxel_size.length r.shape
    match coordMul voxel_size shape with
    | none => .error .rankMismatch
    | some sz => .ok ⟨r, ⟨offset, sz⟩, voxel_size, r.chunks⟩

/-- `open_ds` (datasets.py lines 87-171): dispatch on the path suffix, open
the raw dataset, resolve metadata, compute the Roi and assemble a handle.
The `.json` virtual-descriptor branch reads a JSON file, which the store
(which holds only containers and datasets) does not model; no claim concerns
it. -/
def open_ds (st : Store) (filename ds_name : String) (mode : String) :
    Except OpenError ArrayHandle :=
  if strEndsWith filename ".zarr" || strEndsWith filename ".zip" then
    if strEndsWith filename ".zip" && mode ≠ "r" then .error .zipReadOnly
    else
      match lookupDS st filename ds_name with
      | none => .error .openFailure
      | some r => openResolved r AxisOrder.C
  else if strEndsWith filename ".n5" then
    match lookupDS st filename ds_name with
    | none => .error .openFailure
    | some r => openResolved r AxisOrder.F
  else if strEndsWith filename ".h5" || strEndsWith filename ".hdf" then
    match lookupDS st filename ds_name with
    | none => .error .openFailure
    | some r => openResolved r AxisOrder.C
  else if strEndsWith filename ".json" then
    .error .jsonDescriptor
  else
    .error .unknownFormat

inductive PrepareError where
  | alignShape
  | alignOffset
  | alignWriteSize
  | hdf5Unsupported
  | unknownFormat
  | rankMismatch
  | plannerUndefined
  | openFailed (e : OpenError)
  | incompatible (msg : String)
  | fuel
  deriving DecidableEq, Repr

/-- Message of the incompatibility error (datasets.py lines 357-360).  Note
it names the container path and dataset name but no differing field; the
fields only go to the diagnostic log (lines 336-352). -/
def incompatibleMsg (filename ds_name : String) : String :=
  "Existing dataset is not compatible, please manually delete the volume at "
    ++ filename ++ "/" ++ ds_name

/-- Arguments of `prepare_ds` (datasets.py lines 174-186), with defaults. -/
structure PrepareArgs where
  filename : String
  ds_name : String
  total_roi : Roi
  voxel_size : List Int
  dtype : String
  write_roi : Option Roi := none
  write_size : Option (List Int) := none
  num_channels : Option Nat := none
  compressor : Option String := some "default"
  delete : Bool := false
  force_exact_write_size : Bool := false
  deriving DecidableEq, Repr

/-- Deprecated `write_roi` fallback (datasets.py lines 250-254). -/
def mergedWriteSize (a : PrepareArgs) : Option (List Int) :=
  match a.write_size, a.write_roi with
  | none, some r => some r.shape
  | ws, _ => ws

/-- The three alignment assertions, in source order
(datasets.py lines 243-259). -/
def alignCheck (a : PrepareArgs) : Option PrepareError :=
  if ¬ isMultipleOf a.total_roi.shape a.voxel_size then some .alignShape
  else if ¬ isMultipleOf a.total_roi.offset a.voxel_size then some .alignOffset
  else
    match mergedWriteSize a with
    | some ws =>
      if ¬ isMultipleOf ws a.voxel_size then some .alignWriteSize else none
    | none => none

/-- Resolution of the `"default"` compressor sentinel to the fixed gzip
level-5 codec (datasets.py lines 261-262); codecs are otherwise opaque. -/
def resolveCompressor (c : Option String) : Option String :=
  if c = some "default" then some "gzip-level-5" else c

/-- Format dispatch of the provisioner (datasets.py lines 266-273); `true`
means zarr, `false` means N5. -/
def fmtCheck (filename : String) : Except PrepareError Bool :=
  if strEndsWith filename ".h5" || strEndsWith filename ".hdf" then
    .error .hdf5Unsupported
  else if strEndsWith filename ".zarr" then .ok true
  else if strEndsWith filename ".n5" then .ok false
  else .error .unknownFormat

/-- Chunk-geometry computation (datasets.py lines 275-281): convert the write
size to voxel units and either run the planner or use it as-is. -/
def planChunkShape (a : PrepareArgs) : Except PrepareError (Option (List Int)) :=
  match mergedWriteSize a with
  | none => .ok none
  | some ws =>
    match coordDiv ws a.voxel_size with
    | none => .error .rankMismatch
    | some wsv =>
      if ¬ a.force_exact_write_size then
        match get_chunk_shape wsv with
        | none => .error .plannerUndefined
        | some cs => .ok (some cs)
      else .ok (some wsv)

/-- Logical shape in voxels (datasets.py line 283). -/
def spatialShape (a : PrepareArgs) : Option (List Int) :=
  coordDiv a.total_roi.shape a.voxel_size

/-- Channel-axis prepending (datasets.py lines 285-289). -/
def withChannels (nc : Option Nat) (l : List Int) : List Int :=
  match nc with
  | some n => ((n : Int)) :: l
  | none => l

def chunkWithChannels (nc : Option Nat) (c : Option (List Int)) :
    Option (List Int) :=
  match nc, c with
  | some n, some cs => some (((n : Int)) :: cs)
  | _, c => c

/-- Voxel size including the implicit channel axis (datasets.py line 290). -/
def vsWithChannels (nc : Option Nat) (vs : List Int) : List Int :=
  match nc with
  | some _ => (1 : Int) :: vs
  | none => vs

/-- Attributes written at creation (datasets.py lines 315-320): reversed for
the column-major N5 backend. -/
def createdAttrs (isZarr : Bool) (vs off : List Int) : Attrs :=
  if isZarr then { resolution := some vs, offset := some off }
  else { resolution := some vs.reverse, offset := some off.reverse }

/-- Chunk shape stored on the returned handle (datasets.py lines 322-326):
the voxel-unit chunk shape divided once more by the voxel size (the channel
axis by 1). -/
def handleChunk (nc : Option Nat) (vs : List Int) (chunk : Option (List Int)) :
    Except PrepareError (Option (List Int)) :=
  match chunk with
  | none => .ok none
  | some cs =>
    match coordDiv cs (vsWithChannels nc vs) with
    | none => .error .rankMismatch
    | some q => .ok (some q)

/-- The five compatibility checks against an existing dataset
(datasets.py lines 333-353). -/
def compatCheck (h : ArrayHandle) (a : PrepareArgs) (shape : List Int)
    (chunk_shape : Option (List Int)) : Bool :=
  decide (h.data.shape = shape) && decide (h.roi = a.total_roi) &&
    decide (h.voxel_size = a.voxel_size) &&
    (match mergedWriteSize a with
     | some _ => decide (h.data.chunks = chunk_shape)
     | none => true) &&
    decide (a.dtype = h.data.dtype)

/-- Arguments of the recursive recreation call (datasets.py lines 365-374):
`write_roi` is dropped, `delete` and `force_exact_write_size` revert to their
defaults, and the already-resolved compressor is forwarded. -/
def retryArgs (a : PrepareArgs) : PrepareArgs :=
  { filename := a.filename, ds_name := a.ds_name, total_roi := a.total_roi,
    voxel_size := a.voxel_size, dtype := a.dtype, write_roi := none,
    write_size := mergedWriteSize a, num_channels := a.num_channels,
    compressor := resolveCompressor a.compressor, delete := false,
    force_exact_write_size := false }

/-- `prepare_ds` (datasets.py lines 174-378) over the store state, with a
recursion budget for the delete-and-recreate path (the recursion depth is at
most 2, since the recursive call finds the dataset absent).  Every early
`assert`/`raise` returns the store unchanged at that point. -/
def prepare_ds_core : Nat → Store → PrepareArgs →
    Except PrepareError ArrayHandle × Store
  | 0, st, _ => (.error .fuel, st)
  | fuel + 1, st, a =>
    match alignCheck a with
    | some e => (.error e, st)
    | none =>
      match fmtCheck a.filename with
      | .error e => (.error e, st)
      | .ok isZarr =>
        match planChunkShape a with
        | .error e => (.error e, st)
        | .ok chunk0 =>
          match spatialShape a with
          | none => (.error .rankMismatch, st)
          | some shape0 =>
            let ds_name := lstripSlash a.ds_name
            let shape := withChannels a.num_channels shape0
            let chunk_shape := chunkWithChannels a.num_channels chunk0
            let st1 := ensureContainer st a.filename
            match lookupDS st1 a.filename ds_name with
            | none =>
              let r : DSRecord :=
                ⟨shape, chunk_shape, a.dtype,
                 createdAttrs isZarr a.voxel_size a.total_roi.offset⟩
              let st2 := insertDS st1 a.filename ds_name r
              match handleChunk a.num_channels a.voxel_size chunk_shape with
              | .error e => (.error e, st2)
              | .ok hc => (.ok ⟨r, a.total_roi, a.voxel_size, hc⟩, st2)
            | some _ =>
              match open_ds st1 a.filename ds_name "a" with
              | .error e => (.error (.openFailed e), st1)
              | .ok h =>
                if compatCheck h a shape chunk_shape then (.ok h, st1)
                else if ¬ a.delete then
                  (.error (.incompatible (incompatibleMsg a.filename ds_name)), st1)
                else
                  prepare_ds_core fuel (removeDS st1 a.filename ds_name)
                    (retryArgs a)

def prepare_ds (st : Store) (a : PrepareArgs) :
    Except PrepareError ArrayHandle × Store :=
  prepare_ds_core 2 st a

/-! ### Arithmetic and store helper lemmas -/

theorem int_fdiv_mul_cancel {o v : Int} (hv : v ≠ 0) (hd : v ∣ o) :
    Int.fdiv o v * v = o := by
  obtain ⟨m, rfl⟩ := hd
  rw [Int.mul_fdiv_cancel_left m hv]
  ring

theorem fdiv_mul_cancel_list :
    ∀ (o v : List Int), o.length = v.length →
      (∀ p ∈ o.zip v, p.2 ≠ 0 ∧ p.2 ∣ p.1) →
      List.zipWith (· * ·) (List.zipWith Int.fdiv o v) v = o
  | [], [], _, _ => rfl
  | x :: o, y :: v, h, hp => by
    have h' : o.length = v.length := by simpa using h
    have hxy := hp (x, y) (by simp)
    have hp' : ∀ p ∈ o.zip v, p.2 ≠ 0 ∧ p.2 ∣ p.1 := fun p hq => hp p (by simp [hq])
    simp only [List.zipWith_cons_cons, List.cons.injEq]
    exact ⟨int_fdiv_mul_cancel hxy.1 hxy.2, fdiv_mul_cancel_list o v h' hp'⟩

theorem mul_fdiv_cancel_list :
    ∀ (sh v : List Int), sh.length = v.length →
      (∀ p ∈ sh.zip v, p.2 ≠ 0 ∧ p.2 ∣ p.1) →
      List.zipWith (· * ·) v (List.zipWith Int.fdiv sh v) = sh
  | [], [], _, _ => rfl
  | x :: sh, y :: v, h, hp => by
    have h' : sh.length = v.length := by simpa using h
    have hxy := hp (x, y) (by simp)
    have hp' : ∀ p ∈ sh.zip v, p.2 ≠ 0 ∧ p.2 ∣ p.1 := fun p hq => hp p (by simp [hq])
    simp only [List.zipWith_cons_cons, List.cons.injEq]
    refine ⟨?_, mul_fdiv_cancel_list sh v h' hp'⟩
    have hy : y ≠ 0 := hxy.1
    have hdxy : y ∣ x := hxy.2
    obtain ⟨m, hm⟩ := hdxy
    subst hm
    rw [Int.mul_fdiv_cancel_left m hy]

theorem isMultipleOf_dvd :
    ∀ (o v : List Int), isMultipleOf o v = true → (∀ x ∈ v, 0 < x) →
      ∀ p ∈ o.zip v, p.2 ∣ p.1
  | [], _, _, _ => by simp
  | _ :: _, [], _, _ => by simp
  | x :: o, y :: v, hm, hv => by
    have hy : 0 < y := hv y (by simp)
    have hv' : ∀ z ∈ v, 0 < z := fun z hz => hv z (by simp [hz])
    simp only [isMultipleOf, List.zipWith_cons_cons, List.all_cons, Bool.and_eq_true,
      beq_iff_eq, id] at hm
    intro p hp
    simp only [List.zip_cons_cons, List.mem_cons] at hp
    cases hp with
    | inl he =>
      subst he
      rw [Int.fmod_eq_emod _ (le_of_lt hy)] at hm
      exact Int.dvd_of_emod_eq_zero hm.1
    | inr ht => exact isMultipleOf_dvd o v hm.2 hv' p ht

theorem zip_pairs_of (o v : List Int) (hv : ∀ x ∈ v, 0 < x)
    (hd : ∀ p ∈ o.zip v, p.2 ∣ p.1) :
    ∀ p ∈ o.zip v, p.2 ≠ 0 ∧ p.2 ∣ p.1 := by
  intro p hp
  obtain ⟨x, y⟩ := p
  have hmem := List.of_mem_zip hp
  exact ⟨by have := hv y hmem.2; omega, hd (x, y) hp⟩

theorem lookupDS_ensure (st : Store) (f g d : String) :
    lookupDS (ensureContainer st f) g d = lookupDS st g d := by
  unfold ensureContainer
  split <;> rfl

theorem datasets_ensure (st : Store) (f : String) :
    (ensureContainer st f).datasets = st.datasets := by
  unfold ensureContainer
  split <;> rfl

theorem lookupDS_insert_self (st : Store) (f d : String) (r : DSRecord) :
    lookupDS (insertDS st f d r) f d = some r := by
  simp [lookupDS, insertDS, List.find?_cons_of_pos]

theorem mem_containers_ensure (st : Store) (f : String) :
    f ∈ (ensureContainer st f).containers := by
  unfold ensureContainer
  by_cases h : f ∈ st.containers
  · simp [h]
  · simp [h]

theorem ensureContainer_of_mem (st : Store) (f : String)
    (h : f ∈ st.containers) : ensureContainer st f = st := by
  simp [ensureContainer, h]

theorem containers_insertDS (st : Store) (f d : String) (r : DSRecord) :
    (insertDS st f d r).containers = st.containers := rfl

theorem open_ds_ensure (st : Store) (f g d m : String) :
    open_ds (ensureContainer st f) g d m = open_ds st g d m := by
  simp only [open_ds, lookupDS_ensure]

/-! ### Round-trip lemmas: attributes written at creation resolve back -/

theorem snapPhase_of_aligned (v o : List Int) (hlen : o.length = v.length)
    (hp : ∀ p ∈ o.zip v, p.2 ≠ 0 ∧ p.2 ∣ p.1) :
    snapPhase v o = .ok (v, o) := by
  unfold snapPhase
  have hdiv : coordDiv o v = some (List.zipWith Int.fdiv o v) := by
    simp [coordDiv, coordZip, hlen]
  have hlen2 : (List.zipWith Int.fdiv o v).length = v.length := by
    simp [List.length_zipWith, hlen]
  have hmul : coordMul (List.zipWith Int.fdiv o v) v = some o := by
    simp only [coordMul, coordZip, hlen2, if_true, reduceIte, Option.some.injEq]
    exact fdiv_mul_cancel_list o v hlen hp
  simp only [hdiv, hmul]
  simp

theorem readVSO_created_zarr (vs off shp : List Int)
    (hlen : off.length = vs.length)
    (hp : ∀ p ∈ off.zip vs, p.2 ≠ 0 ∧ p.2 ∣ p.1) :
    readVoxelSizeOffset ⟨createdAttrs true vs off, shp⟩ AxisOrder.C =
      .ok (vs, off) := by
  have hmain : readVoxelSizeOffset ⟨createdAttrs true vs off, shp⟩ AxisOrder.C =
      snapPhase vs off := by
    simp [readVoxelSizeOffset, createdAttrs, vsFromAttrs, offFromAttrs, hlen]
  rw [hmain]
  exact snapPhase_of_aligned vs off hlen hp

theorem readVSO_created_n5 (vs off shp : List Int)
    (hlen : off.length = vs.length)
    (hp : ∀ p ∈ off.zip vs, p.2 ≠ 0 ∧ p.2 ∣ p.1) :
    readVoxelSizeOffset ⟨createdAttrs false vs off, shp⟩ AxisOrder.F =
      .ok (vs, off) := by
  have hmain : readVoxelSizeOffset ⟨createdAttrs false vs off, shp⟩ AxisOrder.F =
      snapPhase vs.reverse.reverse off.reverse.reverse := by
    simp [readVoxelSizeOffset, createdAttrs, vsFromAttrs, offFromAttrs, hlen]
  rw [hmain, List.reverse_reverse, List.reverse_reverse]
  exact snapPhase_of_aligned vs off hlen hp

theorem takeLast_withChannels (nc : Option Nat) (l : List Int) (n : Nat)
    (hn : l.length = n) :
    takeLast n (withChannels nc l) = l := by
  cases nc <;> simp [takeLast, withChannels, hn]

theorem openResolved_ok (r : DSRecord) (order : AxisOrder)
    (vs off shape0 roiShape : List Int)
    (hres : readVoxelSizeOffset ⟨r.attrs, r.shape⟩ order = .ok (vs, off))
    (hshape : takeLast vs.length r.shape = shape0)
    (hlen0 : vs.length = shape0.length)
    (hmul : List.zipWith (· * ·) vs shape0 = roiShape) :
    openResolved r order = .ok ⟨r, ⟨off, roiShape⟩, vs, r.chunks⟩ := by
  unfold openResolved
  rw [hres]
  have hcm : coordMul vs shape0 = some roiShape := by
    simp [coordMul, coordZip, hlen0, hmul]
  simp only [hshape, hcm]

theorem open_ds_zarr (st : Store) (f d m : String)
    (hz : strEndsWith f ".zarr" = true) (hzip : strEndsWith f ".zip" = false)
    (r : DSRecord) (hl : lookupDS st f d = some r) :
    open_ds st f d m = openResolved r AxisOrder.C := by
  simp [open_ds, hz, hzip, hl]

theorem open_ds_n5 (st : Store) (f d m : String)
    (hz : strEndsWith f ".zarr" = false) (hzip : strEndsWith f ".zip" = false)
    (hn : strEndsWith f ".n5" = true)
    (r : DSRecord) (hl : lookupDS st f d = some r) :
    open_ds st f d m = openResolved r AxisOrder.F := by
  simp [open_ds, hz, hzip, hn, hl]

/-! ### Stage lemmas for the provisioner -/

set_option maxHeartbeats 1000000 in
theorem prepare_core_creates (fuel : Nat) (st : Store) (a : PrepareArgs)
    (isZarr : Bool) (chunk0 : Option (List Int)) (shape0 : List Int)
    (hc : Option (List Int))
    (hal : alignCheck a = none)
    (hfmt : fmtCheck a.filename = .ok isZarr)
    (hplan : planChunkShape a = .ok chunk0)
    (hsp : spatialShape a = some shape0)
    (hfresh : lookupDS st a.filename
      (lstripSlash a.ds_name) = none)
    (hhc : handleChunk a.num_channels a.voxel_size
      (chunkWithChannels a.num_channels chunk0) = .ok hc) :
    prepare_ds_core (fuel + 1) st a =
      (.ok ⟨⟨withChannels a.num_channels shape0,
             chunkWithChannels a.num_channels chunk0, a.dtype,
             createdAttrs isZarr a.voxel_size a.total_roi.offset⟩,
            a.total_roi, a.voxel_size, hc⟩,
       insertDS (ensureContainer st a.filename) a.filename
         (lstripSlash a.ds_name)
         ⟨withChannels a.num_channels shape0,
          chunkWithChannels a.num_channels chunk0, a.dtype,
          createdAttrs isZarr a.voxel_size a.total_roi.offset⟩) := by
  simp only [prepare_ds_core, hal, hfmt, hplan, hsp, lookupDS_ensure, hfresh, hhc]

set_option maxHeartbeats 1000000 in
theorem prepare_core_reuses (fuel : Nat) (st : Store) (a : PrepareArgs)
    (isZarr : Bool) (chunk0 : Option (List Int)) (shape0 : List Int)
    (r : DSRecord) (h : ArrayHandle)
    (hal : alignCheck a = none)
    (hfmt : fmtCheck a.filename = .ok isZarr)
    (hplan : planChunkShape a = .ok chunk0)
    (hsp : spatialShape a = some shape0)
    (hex : lookupDS st a.filename
      (lstripSlash a.ds_name) = some r)
    (hopen : open_ds (ensureContainer st a.filename) a.filename
      (lstripSlash a.ds_name) "a" = .ok h)
    (hcompat : compatCheck h a (withChannels a.num_channels shape0)
      (chunkWithChannels a.num_channels chunk0) = true) :
    prepare_ds_core (fuel + 1) st a = (.ok h, ensureContainer st a.filename) := by
  simp only [prepare_ds_core, hal, hfmt, hplan, hsp, lookupDS_ensure, hex, hopen,
    hcompat, if_true]

set_option maxHeartbeats 1000000 in
theorem prepare_core_incompatible (fuel : Nat) (st : Store) (a : PrepareArgs)
    (isZarr : Bool) (chunk0 : Option (List Int)) (shape0 : List Int)
    (r : DSRecord) (h : ArrayHandle)
    (hal : alignCheck a = none)
    (hfmt : fmtCheck a.filename = .ok isZarr)
    (hplan : planChunkShape a = .ok chunk0)
    (hsp : spatialShape a = some shape0)
    (hex : lookupDS st a.filename
      (lstripSlash a.ds_name) = some r)
    (hopen : open_ds (ensureContainer st a.filename) a.filename
      (lstripSlash a.ds_name) "a" = .ok h)
    (hbad : compatCheck h a (withChannels a.num_channels shape0)
      (chunkWithChannels a.num_channels chunk0) = false)
    (hdel : a.delete = false) :
    prepare_ds_core (fuel + 1) st a =
      (.error (.incompatible (incompatibleMsg a.filename
         (lstripSlash a.ds_name))),
       ensureContainer st a.filename) := by
  simp only [prepare_ds_core, hal, hfmt, hplan, hsp, lookupDS_ensure, hex, hopen,
    hbad, hdel, if_false, Bool.false_eq_true, not_false_iff, if_true, reduceIte]

/-! ### Totality helpers for the planning stage -/

theorem fdiv_pos_list :
    ∀ (ws vs : List Int),
      (∀ p ∈ ws.zip vs, 0 < p.1 ∧ 0 < p.2 ∧ p.2 ∣ p.1) →
      ∀ x ∈ List.zipWith Int.fdiv ws vs, 1 ≤ x
  | [], _, _ => by simp
  | _ :: _, [], _ => by simp
  | w :: ws, v :: vs, hp => by
    have hwv := hp (w, v) (by simp)
    have hp' : ∀ p ∈ ws.zip vs, 0 < p.1 ∧ 0 < p.2 ∧ p.2 ∣ p.1 :=
      fun p hq => hp p (by simp [hq])
    intro x hx
    simp only [List.zipWith_cons_cons, List.mem_cons] at hx
    cases hx with
    | inl he =>
      subst he
      obtain ⟨hw, hv, m, hm⟩ := hwv
      have hw' : 0 < w := hw
      have hv' : 0 < v := hv
      have hm' : w = v * m := hm
      have hfd : Int.fdiv w v = m := by
        rw [hm', Int.mul_fdiv_cancel_left m (by omega)]
      rw [hfd]
      nlinarith
    | inr ht => exact fdiv_pos_list ws vs hp' x ht

theorem get_chunk_shape_total :
    ∀ (l : List Int), (∀ x ∈ l, 1 ≤ x) →
      ∃ cs, get_chunk_shape l = some cs ∧ cs.length = l.length ∧
        ∀ x ∈ cs, 1 ≤ x
  | [], _ => ⟨[], rfl, rfl, by simp⟩
  | b :: l, h => by
    have hb : 1 ≤ b := h b (by simp)
    have h' : ∀ x ∈ l, 1 ≤ x := fun x hx => h x (by simp [hx])
    obtain ⟨cs, hcs, hlen, hpos⟩ := get_chunk_shape_total l h'
    obtain ⟨k, ⟨hk1, hkb, hkd, _, _⟩, heq⟩ := get_chunk_size_dim_spec b 256 hb
    obtain ⟨hc1, _, _⟩ := fdiv_of_dvd_facts b k hb hk1 hkb hkd
    refine ⟨Int.fdiv b k :: cs, ?_, by simp [hlen], ?_⟩
    · simp only [get_chunk_shape, heq, hcs]
    · intro x hx
      simp only [List.mem_cons] at hx
      cases hx with
      | inl he => subst he; exact hc1
      | inr ht => exact hpos x ht

theorem handleChunk_ok (nc : Option Nat) (vs : List Int)
    (chunk0 : Option (List Int))
    (hcs : ∀ cs, chunk0 = some cs → cs.length = vs.length) :
    handleChunk nc vs (chunkWithChannels nc chunk0) =
      .ok ((chunkWithChannels nc chunk0).map
        (fun cs => List.zipWith Int.fdiv cs (vsWithChannels nc vs))) := by
  cases chunk0 with
  | none => cases nc <;> rfl
  | some cs =>
    have hlen := hcs cs rfl
    cases nc with
    | none =>
      simp [handleChunk, chunkWithChannels, vsWithChannels, coordDiv, coordZip, hlen]
    | some n =>
      simp [handleChunk, chunkWithChannels, vsWithChannels, coordDiv, coordZip, hlen]

theorem planChunkShape_spec (a : PrepareArgs)
    (hws : ∀ ws, mergedWriteSize a = some ws →
      ws.length = a.voxel_size.length ∧ isMultipleOf ws a.voxel_size = true ∧
      ∀ x ∈ ws, 0 < x)
    (hpos : ∀ x ∈ a.voxel_size, 0 < x) :
    ∃ chunk0, planChunkShape a = .ok chunk0 ∧
      (mergedWriteSize a = none → chunk0 = none) ∧
      (∀ ws, mergedWriteSize a = some ws → ∃ cs, chunk0 = some cs) ∧
      ∀ cs, chunk0 = some cs →
        cs.length = a.voxel_size.length ∧ ∀ x ∈ cs, 1 ≤ x := by
  cases hm : mergedWriteSize a with
  | none =>
    refine ⟨none, by simp [planChunkShape, hm], fun _ => rfl, ?_, by simp⟩
    intro ws h
    exact absurd h (by simp)
  | some ws =>
    obtain ⟨hlenw, hmw, hposw⟩ := hws ws hm
    have hdvdw := isMultipleOf_dvd ws a.voxel_size hmw hpos
    have hdivw : coordDiv ws a.voxel_size =
        some (List.zipWith Int.fdiv ws a.voxel_size) := by
      simp [coordDiv, coordZip, hlenw]
    have hlenwv : (List.zipWith Int.fdiv ws a.voxel_size).length =
        a.voxel_size.length := by
      simp [List.length_zipWith, hlenw]
    have hposwv : ∀ x ∈ List.zipWith Int.fdiv ws a.voxel_size, 1 ≤ x := by
      apply fdiv_pos_list
      intro p hp
      obtain ⟨x, y⟩ := p
      have hmem := List.of_mem_zip hp
      exact ⟨hposw x hmem.1, hpos y hmem.2, hdvdw (x, y) hp⟩
    by_cases hf : a.force_exact_write_size
    · refine ⟨some (List.zipWith Int.fdiv ws a.voxel_size), ?_,
        by simp [hm], fun _ _ => ⟨_, rfl⟩, ?_⟩
      · simp [planChunkShape, hm, hdivw, hf]
      · intro cs h
        injection h with h
        subst h
        exact ⟨hlenwv, hposwv⟩
    · obtain ⟨cs, hcs, hlencs, hposcs⟩ := get_chunk_shape_total _ hposwv
      refine ⟨some cs, ?_, by simp [hm], fun _ _ => ⟨_, rfl⟩, ?_⟩
      · simp [planChunkShape, hm, hdivw, hf, hcs]
      · intro cs' h
        injection h with h
        subst h
        exact ⟨hlencs.trans hlenwv, hposcs⟩

theorem open_created (z : Bool) (st : Store) (f d m : String) (r : DSRecord)
    (vs off shape0 : List Int) (nc : Option Nat) (roiShape : List Int)
    (hfm : (z = true → strEndsWith f ".zarr" = true ∧ strEndsWith f ".zip" = false) ∧
           (z = false → strEndsWith f ".zarr" = false ∧ strEndsWith f ".zip" = false ∧
             strEndsWith f ".n5" = true))
    (hl : lookupDS st f d = some r)
    (hattrs : r.attrs = createdAttrs z vs off)
    (hshape : r.shape = withChannels nc shape0)
    (hlen : off.length = vs.length)
    (hp : ∀ p ∈ off.zip vs, p.2 ≠ 0 ∧ p.2 ∣ p.1)
    (hlen0 : shape0.length = vs.length)
    (hmulc : List.zipWith (· * ·) vs shape0 = roiShape) :
    open_ds st f d m = .ok ⟨r, ⟨off, roiShape⟩, vs, r.chunks⟩ := by
  have htl : takeLast vs.length r.shape = shape0 := by
    rw [hshape]
    exact takeLast_withChannels nc shape0 vs.length hlen0
  cases z with
  | true =>
    obtain ⟨h1, h2⟩ := hfm.1 rfl
    rw [open_ds_zarr st f d m h1 h2 r hl]
    refine openResolved_ok r AxisOrder.C vs off shape0 roiShape ?_ htl hlen0.symm hmulc
    rw [show (⟨r.attrs, r.shape⟩ : RawDataset) =
        ⟨createdAttrs true vs off, r.shape⟩ by rw [hattrs]]
    exact readVSO_created_zarr vs off r.shape hlen hp
  | false =>
    obtain ⟨h1, h2, h3⟩ := hfm.2 rfl
    rw [open_ds_n5 st f d m h1 h2 h3 r hl]
    refine openResolved_ok r AxisOrder.F vs off shape0 roiShape ?_ htl hlen0.symm hmulc
    rw [show (⟨r.attrs, r.shape⟩ : RawDataset) =
        ⟨createdAttrs false vs off, r.shape⟩ by rw [hattrs]]
    exact readVSO_created_n5 vs off r.shape hlen hp

/-! ### C8: alignment failures precede any mutation -/

/-- C8 (confirmed): whenever the requested Roi shape or offset, or a given
write size (including one inherited from the deprecated `write_roi`), is not
an exact multiple of the voxel size, `prepare_ds` fails with an alignment
error and returns with the store — containers and datasets — exactly as it
was: the assertions run before any mutation, including before the format
dispatch. -/
theorem C8_alignment_before_mutation (st : Store) (a : PrepareArgs)
    (hmis : isMultipleOf a.total_roi.shape a.voxel_size = false ∨
            isMultipleOf a.total_roi.offset a.voxel_size = false ∨
            ∃ ws, mergedWriteSize a = some ws ∧
              isMultipleOf ws a.voxel_size = false) :
    ∃ e, prepare_ds st a = (.error e, st) ∧
      (e = PrepareError.alignShape ∨ e = PrepareError.alignOffset ∨
       e = PrepareError.alignWriteSize) := by
  have hex : ∃ e, alignCheck a = some e ∧
      (e = PrepareError.alignShape ∨ e = PrepareError.alignOffset ∨
       e = PrepareError.alignWriteSize) := by
    cases hs : isMultipleOf a.total_roi.shape a.voxel_size with
    | false => exact ⟨_, by simp [alignCheck, hs], Or.inl rfl⟩
    | true =>
      cases ho : isMultipleOf a.total_roi.offset a.voxel_size with
      | false => exact ⟨_, by simp [alignCheck, hs, ho], Or.inr (Or.inl rfl)⟩
      | true =>
        rcases hmis with h | h | ⟨ws, hw, hwb⟩
        · rw [hs] at h; exact absurd h (by simp)
        · rw [ho] at h; exact absurd h (by simp)
        · exact ⟨_, by simp [alignCheck, hs, ho, hw, hwb], Or.inr (Or.inr rfl)⟩
  obtain ⟨e, he, hmem⟩ := hex
  refine ⟨e, ?_, hmem⟩
  show prepare_ds_core 2 st a = (.error e, st)
  rw [show (2 : Nat) = 1 + 1 from rfl]
  simp only [prepare_ds_core, he]

/-- Witness for C8: a Roi shape `[3]` with voxel size `[2]` on an otherwise
empty store. -/
theorem C8_alignment_witness :
    ∃ e, prepare_ds ⟨[], []⟩
        { filename := "f.zarr", ds_name := "vol",
          total_roi := ⟨[0], [3]⟩, voxel_size := [2], dtype := "uint8" } =
      (.error e, (⟨[], []⟩ : Store)) ∧
      (e = PrepareError.alignShape ∨ e = PrepareError.alignOffset ∨
       e = PrepareError.alignWriteSize) :=
  C8_alignment_before_mutation _ _ (Or.inl (by decide))

/-! ### C2: provisioning is idempotent -/

/-- C2 (confirmed): calling `prepare_ds` twice with identical arguments on a
fresh path (a supported zarr or N5 filename whose dataset subpath does not
yet exist), with arguments satisfying the alignment preconditions (Roi shape
and offset and any given write size are exact multiples of the positive voxel
size, all of matching rank), succeeds both times, and the handle returned by
the second call has the same shape, Roi, voxel size and dtype as the handle
returned by the first call. -/
theorem C2_prepare_idempotent (st : Store) (a : PrepareArgs)
    (hlenS : a.total_roi.shape.length = a.voxel_size.length)
    (hlenO : a.total_roi.offset.length = a.voxel_size.length)
    (hpos : ∀ x ∈ a.voxel_size, 0 < x)
    (hmulS : isMultipleOf a.total_roi.shape a.voxel_size = true)
    (hmulO : isMultipleOf a.total_roi.offset a.voxel_size = true)
    (hws : ∀ ws, mergedWriteSize a = some ws →
      ws.length = a.voxel_size.length ∧ isMultipleOf ws a.voxel_size = true ∧
      ∀ x ∈ ws, 0 < x)
    (hfmt2 : (strEndsWith a.filename ".zarr" = true ∧
              strEndsWith a.filename ".zip" = false ∧
              strEndsWith a.filename ".h5" = false ∧
              strEndsWith a.filename ".hdf" = false) ∨
             (strEndsWith a.filename ".zarr" = false ∧
              strEndsWith a.filename ".zip" = false ∧
              strEndsWith a.filename ".n5" = true ∧
              strEndsWith a.filename ".h5" = false ∧
              strEndsWith a.filename ".hdf" = false))
    (hfresh : lookupDS st a.filename
      (lstripSlash a.ds_name) = none) :
    ∃ h1 h2 st1 st2,
      prepare_ds st a = (.ok h1, st1) ∧
      prepare_ds st1 a = (.ok h2, st2) ∧
      h2.data.shape = h1.data.shape ∧ h2.roi = h1.roi ∧
      h2.voxel_size = h1.voxel_size ∧ h2.data.dtype = h1.data.dtype := by
  have hdvdO := isMultipleOf_dvd _ _ hmulO hpos
  have hdvdS := isMultipleOf_dvd _ _ hmulS hpos
  have hpairsO := zip_pairs_of _ _ hpos hdvdO
  have hpairsS := zip_pairs_of _ _ hpos hdvdS
  have hal : alignCheck a = none := by
    simp only [alignCheck, hmulS, hmulO, not_true_eq_false, Bool.not_true,
      if_false, reduceIte]
    cases hm : mergedWriteSize a with
    | none => rfl
    | some ws => simp [(hws ws hm).2.1]
  have hfmtE : ∃ z, fmtCheck a.filename = .ok z ∧
      (z = true → strEndsWith a.filename ".zarr" = true ∧
        strEndsWith a.filename ".zip" = false) ∧
      (z = false → strEndsWith a.filename ".zarr" = false ∧
        strEndsWith a.filename ".zip" = false ∧
        strEndsWith a.filename ".n5" = true) := by
    rcases hfmt2 with ⟨h1, h2, h3, h4⟩ | ⟨h1, h2, h3, h4, h5⟩
    · exact ⟨true, by simp [fmtCheck, h1, h3, h4], fun _ => ⟨h1, h2⟩, by simp⟩
    · exact ⟨false, by simp [fmtCheck, h1, h3, h4, h5], by simp,
        fun _ => ⟨h1, h2, h3⟩⟩
  obtain ⟨z, hfmt, hzT, hzF⟩ := hfmtE
  obtain ⟨chunk0, hplan, _, _, hchunk0⟩ := planChunkShape_spec a hws hpos
  have hsp : spatialShape a =
      some (List.zipWith Int.fdiv a.total_roi.shape a.voxel_size) := by
    simp [spatialShape, coordDiv, coordZip, hlenS]
  have hlen0 : (List.zipWith Int.fdiv a.total_roi.shape a.voxel_size).length =
      a.voxel_size.length := by
    simp [List.length_zipWith, hlenS]
  have hhcE := handleChunk_ok a.num_channels a.voxel_size chunk0
    (fun cs h => (hchunk0 cs h).1)
  have hcall1 := prepare_core_creates 1 st a z chunk0
    (List.zipWith Int.fdiv a.total_roi.shape a.voxel_size) _
    hal hfmt hplan hsp hfresh hhcE
  have hens2 : ensureContainer
      (insertDS (ensureContainer st a.filename) a.filename
        (lstripSlash a.ds_name)
        ⟨withChannels a.num_channels
           (List.zipWith Int.fdiv a.total_roi.shape a.voxel_size),
         chunkWithChannels a.num_channels chunk0, a.dtype,
         createdAttrs z a.voxel_size a.total_roi.offset⟩) a.filename =
      insertDS (ensureContainer st a.filename) a.filename
        (lstripSlash a.ds_name)
        ⟨withChannels a.num_channels
           (List.zipWith Int.fdiv a.total_roi.shape a.voxel_size),
         chunkWithChannels a.num_channels chunk0, a.dtype,
         createdAttrs z a.voxel_size a.total_roi.offset⟩ :=
    ensureContainer_of_mem _ _
      (by rw [containers_insertDS]; exact mem_containers_ensure st a.filename)
  have hlook2 := lookupDS_insert_self (ensureContainer st a.filename) a.filename
    (lstripSlash a.ds_name)
    ⟨withChannels a.num_channels
       (List.zipWith Int.fdiv a.total_roi.shape a.voxel_size),
     chunkWithChannels a.num_channels chunk0, a.dtype,
     createdAttrs z a.voxel_size a.total_roi.offset⟩
  have hmulcancel : List.zipWith (· * ·) a.voxel_size
      (List.zipWith Int.fdiv a.total_roi.shape a.voxel_size) =
      a.total_roi.shape :=
    mul_fdiv_cancel_list _ _ hlenS hpairsS
  have hopen2 := open_created z
    (insertDS (ensureContainer st a.filename) a.filename
      (lstripSlash a.ds_name)
      ⟨withChannels a.num_channels
         (List.zipWith Int.fdiv a.total_roi.shape a.voxel_size),
       chunkWithChannels a.num_channels chunk0, a.dtype,
       createdAttrs z a.voxel_size a.total_roi.offset⟩)
    a.filename (lstripSlash a.ds_name) "a"
    ⟨withChannels a.num_channels
       (List.zipWith Int.fdiv a.total_roi.shape a.voxel_size),
     chunkWithChannels a.num_channels chunk0, a.dtype,
     createdAttrs z a.voxel_size a.total_roi.offset⟩
    a.voxel_size a.total_roi.offset
    (List.zipWith Int.fdiv a.total_roi.shape a.voxel_size)
    a.num_channels a.total_roi.shape
    ⟨hzT, hzF⟩ hlook2 rfl rfl hlenO hpairsO hlen0 hmulcancel
  have hcompat : compatCheck
      ⟨⟨withChannels a.num_channels
          (List.zipWith Int.fdiv a.total_roi.shape a.voxel_size),
        chunkWithChannels a.num_channels chunk0, a.dtype,
        createdAttrs z a.voxel_size a.total_roi.offset⟩,
       ⟨a.total_roi.offset, a.total_roi.shape⟩, a.voxel_size,
       chunkWithChannels a.num_channels chunk0⟩ a
      (withChannels a.num_channels
        (List.zipWith Int.fdiv a.total_roi.shape a.voxel_size))
      (chunkWithChannels a.num_channels chunk0) = true := by
    simp only [compatCheck]
    cases hm : mergedWriteSize a <;> simp
  have hcall2 := prepare_core_reuses 1 _ a z chunk0
    (List.zipWith Int.fdiv a.total_roi.shape a.voxel_size) _ _
    hal hfmt hplan hsp hlook2 (by rw [hens2]; exact hopen2) hcompat
  set rr : DSRecord :=
    ⟨withChannels a.num_channels
       (List.zipWith Int.fdiv a.total_roi.shape a.voxel_size),
     chunkWithChannels a.num_channels chunk0, a.dtype,
     createdAttrs z a.voxel_size a.total_roi.offset⟩ with hrr
  set stc : Store := insertDS (ensureContainer st a.filename) a.filename
    (lstripSlash a.ds_name) rr with hstc
  refine ⟨⟨rr, a.total_roi, a.voxel_size,
           Option.map (fun cs => List.zipWith Int.fdiv cs
             (vsWithChannels a.num_channels a.voxel_size))
             (chunkWithChannels a.num_channels chunk0)⟩,
          ⟨rr, ⟨a.total_roi.offset, a.total_roi.shape⟩, a.voxel_size,
           rr.chunks⟩,
          stc, stc, ?_, ?_, rfl, rfl, rfl, rfl⟩
  · show prepare_ds_core 2 st a = _
    rw [show (2 : Nat) = 1 + 1 from rfl]
    exact hcall1
  · show prepare_ds_core 2 stc a = _
    rw [show (2 : Nat) = 1 + 1 from rfl]
    rw [hcall2, hens2]

/-- Witness for C2 at a concrete fresh zarr path with a write size. -/
theorem C2_prepare_idempotent_witness :
    ∃ h1 h2 st1 st2,
      prepare_ds ⟨[], []⟩
          { filename := "f.zarr", ds_name := "vol",
            total_roi := ⟨[0, 0], [8, 8]⟩, voxel_size := [2, 2],
            dtype := "uint8", write_size := some [4, 4] } = (.ok h1, st1) ∧
      prepare_ds st1
          { filename := "f.zarr", ds_name := "vol",
            total_roi := ⟨[0, 0], [8, 8]⟩, voxel_size := [2, 2],
            dtype := "uint8", write_size := some [4, 4] } = (.ok h2, st2) ∧
      h2.data.shape = h1.data.shape ∧ h2.roi = h1.roi ∧
      h2.voxel_size = h1.voxel_size ∧ h2.data.dtype = h1.data.dtype :=
  C2_prepare_idempotent ⟨[], []⟩ _ (by decide) (by decide) (by decide)
    (by decide) (by decide)
    (by intro ws h; injection h with h; subst h; exact ⟨by decide, by decide, by decide⟩)
    (Or.inl ⟨by decide, by decide, by decide, by decide⟩) (by decide)

/-! ### C7: incompatible existing dataset with delete=false -/

/-- C7 (amended, proved): if the existing dataset at the requested path opens
successfully but fails any of the five compatibility checks and `delete` is
false, `prepare_ds` fails with the incompatibility error naming the container
path and dataset name, and the existing dataset is left untouched: the
returned store has exactly the datasets of the input store, the record is
still present, and a subsequent open returns the same handle as before. -/
theorem C7_incompatible_raises_and_preserves (st : Store) (a : PrepareArgs)
    (z : Bool) (chunk0 : Option (List Int)) (shape0 : List Int)
    (r : DSRecord) (h : ArrayHandle)
    (hal : alignCheck a = none)
    (hfmt : fmtCheck a.filename = .ok z)
    (hplan : planChunkShape a = .ok chunk0)
    (hsp : spatialShape a = some shape0)
    (hex : lookupDS st a.filename (lstripSlash a.ds_name) = some r)
    (hopen : open_ds (ensureContainer st a.filename) a.filename
      (lstripSlash a.ds_name) "a" = .ok h)
    (hbad : compatCheck h a (withChannels a.num_channels shape0)
      (chunkWithChannels a.num_channels chunk0) = false)
    (hdel : a.delete = false) :
    prepare_ds st a =
      (.error (.incompatible (incompatibleMsg a.filename
         (lstripSlash a.ds_name))), ensureContainer st a.filename) ∧
    (ensureContainer st a.filename).datasets = st.datasets ∧
    lookupDS (ensureContainer st a.filename) a.filename
      (lstripSlash a.ds_name) = some r ∧
    open_ds (ensureContainer st a.filename) a.filename
      (lstripSlash a.ds_name) "a" = .ok h := by
  refine ⟨?_, datasets_ensure st a.filename, ?_, hopen⟩
  · show prepare_ds_core 2 st a = _
    rw [show (2 : Nat) = 1 + 1 from rfl]
    exact prepare_core_incompatible 1 st a z chunk0 shape0 r h hal hfmt hplan
      hsp hex hopen hbad hdel
  · rw [lookupDS_ensure]
    exact hex

/-- Record for the C7 counterexample: matches the request except for dtype. -/
def r7A : DSRecord :=
  ⟨[4, 4], some [2, 2], "float32",
   { resolution := some [2, 2], offset := some [0, 0] }⟩

/-- Record for the C7 counterexample: matches the request except for shape. -/
def r7B : DSRecord :=
  ⟨[5, 5], some [2, 2], "uint8",
   { resolution := some [2, 2], offset := some [0, 0] }⟩

def st7A : Store := ⟨["g.zarr"], [("g.zarr", "vol", r7A)]⟩

def st7B : Store := ⟨["g.zarr"], [("g.zarr", "vol", r7B)]⟩

def args7 : PrepareArgs :=
  { filename := "g.zarr", ds_name := "vol", total_roi := ⟨[0, 0], [8, 8]⟩,
    voxel_size := [2, 2], dtype := "uint8", write_size := some [4, 4] }

/-- C7 (counterexample): the raised incompatibility error does not name the
differing field(s).  A dtype-only mismatch (`r7A`) and a shape-only mismatch
(`r7B`) raise the very same error value, whose message names only the path
`g.zarr/vol`; the differing fields appear only in the diagnostic log, not in
the error. -/
theorem C7_error_does_not_name_fields :
    prepare_ds st7A args7 =
      (.error (.incompatible (incompatibleMsg "g.zarr" "vol")), st7A) ∧
    prepare_ds st7B args7 =
      (.error (.incompatible (incompatibleMsg "g.zarr" "vol")), st7B) ∧
    r7A.dtype ≠ args7.dtype ∧ r7A.shape = [4, 4] ∧
    r7B.dtype = args7.dtype ∧ r7B.shape ≠ [4, 4] := by
  refine ⟨by decide, by decide, by decide, by decide, by decide, by decide⟩

/-- Witness for C7 (amended) at the concrete dtype-mismatch store. -/
theorem C7_incompatible_witness :
    prepare_ds st7A args7 =
      (.error (.incompatible (incompatibleMsg args7.filename
         (lstripSlash args7.ds_name))), ensureContainer st7A args7.filename) ∧
    (ensureContainer st7A args7.filename).datasets = st7A.datasets ∧
    lookupDS (ensureContainer st7A args7.filename) args7.filename
      (lstripSlash args7.ds_name) = some r7A ∧
    open_ds (ensureContainer st7A args7.filename) args7.filename
      (lstripSlash args7.ds_name) "a" =
      .ok ⟨r7A, ⟨[0, 0], [8, 8]⟩, [2, 2], some [2, 2]⟩ :=
  C7_incompatible_raises_and_preserves st7A args7 true (some [2, 2]) [4, 4]
    r7A ⟨r7A, ⟨[0, 0], [8, 8]⟩, [2, 2], some [2, 2]⟩
    (by decide) (by decide) (by decide) (by decide) (by decide) (by decide)
    (by decide) rfl

/-! ### C10: the returned handle's chunk shape is divided twice -/

theorem zipWith_fdiv_ne :
    ∀ (c v : List Int), c.length = v.length →
      (∀ p ∈ c.zip v, 1 ≤ p.2 ∧ (p.2 ≠ 1 → 1 ≤ p.1)) →
      (∃ x ∈ v, x ≠ 1) →
      List.zipWith Int.fdiv c v ≠ c
  | [], [], _, _, hne => by simp at hne
  | x :: c, y :: v, h, hp, hne => by
    have h' : c.length = v.length := by simpa using h
    have hxy := hp (x, y) (by simp)
    have hp' : ∀ p ∈ c.zip v, 1 ≤ p.2 ∧ (p.2 ≠ 1 → 1 ≤ p.1) :=
      fun p hq => hp p (by simp [hq])
    by_cases hy1 : y = 1
    · subst hy1
      have hne' : ∃ w ∈ v, w ≠ 1 := by
        rcases hne with ⟨w, hw, hwne⟩
        simp only [List.mem_cons] at hw
        cases hw with
        | inl he => subst he; exact absurd rfl hwne
        | inr ht => exact ⟨w, ht, hwne⟩
      intro heq
      simp only [List.zipWith_cons_cons, Int.fdiv_one, List.cons.injEq] at heq
      exact zipWith_fdiv_ne c v h' hp' hne' heq.2
    · have hy2 : 2 ≤ y := by have := hxy.1; omega
      have hx1 : 1 ≤ x := hxy.2 hy1
      have hlt : Int.fdiv x y < x := by
        rw [Int.fdiv_eq_ediv _ (by omega : (0 : Int) ≤ y)]
        have hq : x / y * y ≤ x := Int.ediv_mul_le x (by omega)
        have hq0 : 0 ≤ x / y := Int.ediv_nonneg (by omega) (by omega)
        nlinarith
      intro heq
      simp only [List.zipWith_cons_cons, List.cons.injEq] at heq
      omega

theorem chunkWithChannels_some (nc : Option Nat) (cs : List Int) :
    chunkWithChannels nc (some cs) = some (withChannels nc cs) := by
  cases nc <;> rfl

/-- C10 (confirmed): on the fresh-creation path with a write size given, the
`chunk_shape` field of the returned handle equals the planned voxel-unit
chunk shape divided elementwise a second time by the voxel size (the channel
axis, if present, divided by 1), while the backend dataset records the
planned chunk shape itself; hence the two differ whenever any voxel-size
component is not 1. -/
theorem C10_handle_chunk_double_divided (st : Store) (a : PrepareArgs)
    (ws : List Int)
    (hlenS : a.total_roi.shape.length = a.voxel_size.length)
    (_hlenO : a.total_roi.offset.length = a.voxel_size.length)
    (hpos : ∀ x ∈ a.voxel_size, 0 < x)
    (hmulS : isMultipleOf a.total_roi.shape a.voxel_size = true)
    (hmulO : isMultipleOf a.total_roi.offset a.voxel_size = true)
    (hwrite : mergedWriteSize a = some ws)
    (hwlen : ws.length = a.voxel_size.length)
    (hwmul : isMultipleOf ws a.voxel_size = true)
    (hwpos : ∀ x ∈ ws, 0 < x)
    (hfmt2 : (strEndsWith a.filename ".zarr" = true ∧
              strEndsWith a.filename ".zip" = false ∧
              strEndsWith a.filename ".h5" = false ∧
              strEndsWith a.filename ".hdf" = false) ∨
             (strEndsWith a.filename ".zarr" = false ∧
              strEndsWith a.filename ".zip" = false ∧
              strEndsWith a.filename ".n5" = true ∧
              strEndsWith a.filename ".h5" = false ∧
              strEndsWith a.filename ".hdf" = false))
    (hfresh : lookupDS st a.filename (lstripSlash a.ds_name) = none) :
    ∃ h1 st1 cs0,
      prepare_ds st a = (.ok h1, st1) ∧
      planChunkShape a = .ok (some cs0) ∧
      h1.data.chunks = some (withChannels a.num_channels cs0) ∧
      h1.chunk_shape = some (List.zipWith Int.fdiv
        (withChannels a.num_channels cs0)
        (vsWithChannels a.num_channels a.voxel_size)) ∧
      ((∃ x ∈ a.voxel_size, x ≠ 1) →
        h1.chunk_shape ≠ h1.data.chunks) := by
  have hws : ∀ w, mergedWriteSize a = some w →
      w.length = a.voxel_size.length ∧ isMultipleOf w a.voxel_size = true ∧
      ∀ x ∈ w, 0 < x := by
    intro w hw
    rw [hwrite] at hw
    injection hw with hw
    subst hw
    exact ⟨hwlen, hwmul, hwpos⟩
  have hal : alignCheck a = none := by
    simp only [alignCheck, hmulS, hmulO, not_true_eq_false, Bool.not_true,
      if_false, reduceIte, hwrite, hwmul]
  have hfmtE : ∃ z, fmtCheck a.filename = .ok z := by
    rcases hfmt2 with ⟨h1, _, h3, h4⟩ | ⟨h1, _, h3, h4, h5⟩
    · exact ⟨true, by simp [fmtCheck, h1, h3, h4]⟩
    · exact ⟨false, by simp [fmtCheck, h1, h3, h4, h5]⟩
  obtain ⟨z, hfmt⟩ := hfmtE
  obtain ⟨chunk0, hplan, _, hsome, hchunk0⟩ := planChunkShape_spec a hws hpos
  obtain ⟨cs0, hcs0⟩ := hsome ws hwrite
  subst hcs0
  obtain ⟨hlencs, hposcs⟩ := hchunk0 cs0 rfl
  have hsp : spatialShape a =
      some (List.zipWith Int.fdiv a.total_roi.shape a.voxel_size) := by
    simp [spatialShape, coordDiv, coordZip, hlenS]
  have hhcE := handleChunk_ok a.num_channels a.voxel_size (some cs0)
    (fun cs hcseq => by injection hcseq with hcseq; subst hcseq; exact hlencs)
  have hcall1 := prepare_core_creates 1 st a z (some cs0)
    (List.zipWith Int.fdiv a.total_roi.shape a.voxel_size) _
    hal hfmt hplan hsp hfresh hhcE
  refine ⟨⟨⟨withChannels a.num_channels
             (List.zipWith Int.fdiv a.total_roi.shape a.voxel_size),
            chunkWithChannels a.num_channels (some cs0), a.dtype,
            createdAttrs z a.voxel_size a.total_roi.offset⟩,
           a.total_roi, a.voxel_size,
           Option.map (fun cs => List.zipWith Int.fdiv cs
             (vsWithChannels a.num_channels a.voxel_size))
             (chunkWithChannels a.num_channels (some cs0))⟩,
          insertDS (ensureContainer st a.filename) a.filename
            (lstripSlash a.ds_name)
            ⟨withChannels a.num_channels
               (List.zipWith Int.fdiv a.total_roi.shape a.voxel_size),
             chunkWithChannels a.num_channels (some cs0), a.dtype,
             createdAttrs z a.voxel_size a.total_roi.offset⟩,
          cs0, ?_, hplan, ?_, ?_, ?_⟩
  · show prepare_ds_core 2 st a = _
    rw [show (2 : Nat) = 1 + 1 from rfl]
    exact hcall1
  · show chunkWithChannels a.num_channels (some cs0) = _
    exact chunkWithChannels_some _ _
  · show (chunkWithChannels a.num_channels (some cs0)).map _ = _
    rw [chunkWithChannels_some]
    rfl
  · intro hne1
    show (chunkWithChannels a.num_channels (some cs0)).map _ ≠
      chunkWithChannels a.num_channels (some cs0)
    rw [chunkWithChannels_some]
    intro heq
    simp only [Option.map_some', Option.some.injEq] at heq
    have hlenPV : (withChannels a.num_channels cs0).length =
        (vsWithChannels a.num_channels a.voxel_size).length := by
      cases a.num_channels <;> simp [withChannels, vsWithChannels, hlencs]
    have hpairs : ∀ p ∈ (withChannels a.num_channels cs0).zip
        (vsWithChannels a.num_channels a.voxel_size),
        1 ≤ p.2 ∧ (p.2 ≠ 1 → 1 ≤ p.1) := by
      cases hnc : a.num_channels with
      | none =>
        simp only [withChannels, vsWithChannels]
        intro p hp
        obtain ⟨x, y⟩ := p
        have hmem := List.of_mem_zip hp
        exact ⟨hpos y hmem.2, fun _ => hposcs x hmem.1⟩
      | some n =>
        simp only [withChannels, vsWithChannels]
        intro p hp
        simp only [List.zip_cons_cons, List.mem_cons] at hp
        cases hp with
        | inl he =>
          subst he
          exact ⟨le_refl 1, fun hc => absurd rfl hc⟩
        | inr ht =>
          obtain ⟨x, y⟩ := p
          have hmem := List.of_mem_zip ht
          exact ⟨hpos y hmem.2, fun _ => hposcs x hmem.1⟩
    have hneV : ∃ x ∈ vsWithChannels a.num_channels a.voxel_size, x ≠ 1 := by
      obtain ⟨x, hx, hxne⟩ := hne1
      cases a.num_channels with
      | none => exact ⟨x, hx, hxne⟩
      | some n => exact ⟨x, by simp [vsWithChannels, hx], hxne⟩
    exact zipWith_fdiv_ne _ _ hlenPV hpairs hneV heq

/-- Witness for C10: voxel size `[2, 2]`, write size `[4, 4]` on a fresh zarr
path; the backend chunks are `[2, 2]` but the returned handle records
`[1, 1]`. -/
theorem C10_handle_chunk_witness :
    ∃ h1 st1 cs0,
      prepare_ds ⟨[], []⟩
          { filename := "f.zarr", ds_name := "vol",
            total_roi := ⟨[0, 0], [8, 8]⟩, voxel_size := [2, 2],
            dtype := "uint8", write_size := some [4, 4] } = (.ok h1, st1) ∧
      planChunkShape
          { filename := "f.zarr", ds_name := "vol",
            total_roi := ⟨[0, 0], [8, 8]⟩, voxel_size := [2, 2],
            dtype := "uint8", write_size := some [4, 4] } = .ok (some cs0) ∧
      h1.data.chunks = some (withChannels none cs0) ∧
      h1.chunk_shape = some (List.zipWith Int.fdiv (withChannels none cs0)
        (vsWithChannels none [2, 2])) ∧
      ((∃ x ∈ ([2, 2] : List Int), x ≠ 1) →
        h1.chunk_shape ≠ h1.data.chunks) :=
  C10_handle_chunk_double_divided ⟨[], []⟩ _ [4, 4] (by decide) (by decide)
    (by decide) (by decide) (by decide) (by decide) (by decide) (by decide)
    (by decide)
    (Or.inl ⟨by decide, by decide, by decide, by decide⟩) (by decide)

end Funlib
